import Mathlib

/-!
Shallow embedding of `src/C/common/reading_set.cpp` (FogLAMP storage-client
reading-set deserialiser).

JSON documents are modelled as the generic value tree the external parser
(rapidjson) produces.  Machine integers are `Int`/`Nat` with explicit
reductions modulo `2 ^ 32` / `2 ^ 64` where the code reads a narrower union
field; C `double` payloads are carried as exact rationals (the code never
performs floating-point arithmetic, it only moves values).  rapidjson
assertion failures (`operator[]` on an absent member, `Get*` on a value
without the matching type flag) abort the process and are modelled by the
distinguished error `RErr.rjAssert`; a read of an uninitialised buffer is
modelled by `none`, and the null-pointer dereference reachable in the array
payload loop by `RErr.nullDeref`.
-/

namespace ReadingSetSpec

/-- A rapidjson number.  The parser stores a number either with integer
flags (`kIntFlag`/`kUintFlag`/`kInt64Flag`/`kUint64Flag`, set according to
the range of the value) or as a `double`.  `intNum` carries the exact
integer; the individual flags are recovered from its range.  An `intNum`
outside every integer range models a number that carries no representation
flag at all (`IsNumber()` true, every `Is*` accessor false). -/
inductive RjNum where
  | intNum (v : Int)
  | dblNum (v : Rat)
deriving DecidableEq

/-- `IsInt()`: the value fits in a signed 32-bit integer. -/
def RjNum.isInt : RjNum → Bool
  | .intNum v => decide (-(2 ^ 31) ≤ v ∧ v ≤ 2 ^ 31 - 1)
  | .dblNum _ => false

/-- `IsUint()`: the value fits in an unsigned 32-bit integer. -/
def RjNum.isUint : RjNum → Bool
  | .intNum v => decide (0 ≤ v ∧ v ≤ 2 ^ 32 - 1)
  | .dblNum _ => false

/-- `IsInt64()`: the value fits in a signed 64-bit integer. -/
def RjNum.isInt64 : RjNum → Bool
  | .intNum v => decide (-(2 ^ 63) ≤ v ∧ v ≤ 2 ^ 63 - 1)
  | .dblNum _ => false

/-- `IsUint64()`: the value fits in an unsigned 64-bit integer. -/
def RjNum.isUint64 : RjNum → Bool
  | .intNum v => decide (0 ≤ v ∧ v ≤ 2 ^ 64 - 1)
  | .dblNum _ => false

/-- `IsDouble()`: the number is stored as a `double`. -/
def RjNum.isDouble : RjNum → Bool
  | .intNum _ => false
  | .dblNum _ => true

/-- Reinterpret the low `w` bits of an integer's two's-complement form as a
signed `w`-bit value — what reading a narrower field of rapidjson's number
union yields on a little-endian release build. -/
def toSigned (w : Nat) (x : Int) : Int :=
  let m := x % (2 ^ w)
  if m < 2 ^ (w - 1) then m else m - 2 ^ w

/-- `GetInt()`: reads the 32-bit signed field of the number union.  (On a
value without the 32-bit flags this is an out-of-contract read that returns
the reinterpreted low 32 bits; rapidjson's debug assertion would abort.)
Never reached on a `double` in the modelled code paths. -/
def RjNum.getInt : RjNum → Int
  | .intNum v => toSigned 32 v
  | .dblNum _ => 0

/-- `GetInt64()`: reads the 64-bit signed field of the number union. -/
def RjNum.getInt64 : RjNum → Int
  | .intNum v => toSigned 64 v
  | .dblNum _ => 0

/-- `GetDouble()` on a double-flagged number.  Never reached on an integer
in the modelled code paths. -/
def RjNum.getDouble : RjNum → Rat
  | .intNum _ => 0
  | .dblNum v => v

/-- The generic JSON value tree produced by the external parser.  Object
members are kept in document order. -/
inductive JsonValue where
  | null
  | bool (b : Bool)
  | num (n : RjNum)
  | str (s : String)
  | arr (elems : List JsonValue)
  | obj (members : List (String × JsonValue))

/-- `FindMember` / `HasMember` / `operator[]`: the first member with the
given name, in document order. -/
def getMember : List (String × JsonValue) → String → Option JsonValue
  | [], _ => none
  | p :: rest, k => if p.1 = k then some p.2 else getMember rest k

/-- Errors (and modelled aborts) of reading-set construction, one per throw
site of the source, using the spec's taxonomy names. -/
inductive RErr where
  | missingReadingsArray
  | readingsNotArray
  | readingNotObject
  | unsupportedNumericType (name : String)
  | unsupportedMemberType (name : String)
  | arrayElementNotObject
  | emptyArrayPayload
  | nullDeref
  | rjAssert (what : String)
deriving DecidableEq

/-- `GetUint()` applied to a document member (`count`, `id`): defined only
for a number carrying the unsigned 32-bit flag, otherwise a rapidjson
assertion fires. -/
def rjGetUint (v : JsonValue) : Except RErr Nat :=
  match v with
  | .num (.intNum i) =>
    if 0 ≤ i ∧ i ≤ 2 ^ 32 - 1 then Except.ok i.toNat
    else Except.error (RErr.rjAssert "GetUint")
  | _ => Except.error (RErr.rjAssert "GetUint")

/-- `json[name].GetString()`: asserts that the member exists and is a
string. -/
def getStringMember (json : List (String × JsonValue)) (name : String) :
    Except RErr String :=
  match getMember json name with
  | some (.str s) => Except.ok s
  | _ => Except.error (RErr.rjAssert name)

/-- The fractional-seconds field captured by
`sscanf(str, "%*d-%*d-%*d %*d:%*d:%*d.%[0-9]*", fractional)` in
`convert_timestamp`: the maximal run of digits following the first dot.
`none` models a failed match (no dot, or no digit after it) in which case
`sscanf` does not write the buffer and `fractional` keeps indeterminate
stack contents. -/
def fractionalField (str : String) : Option String :=
  match str.toList.dropWhile (fun c => c ≠ '.') with
  | [] => none
  | _ :: rest =>
    let ds := rest.takeWhile Char.isDigit
    if ds = [] then none else some ⟨ds⟩

/-- `atol` on a string of decimal digits. -/
def digitsToNat (l : List Char) : Nat :=
  l.foldl (fun acc c => acc * 10 + (c.toNat - '0'.toNat)) 0

/-- Microsecond computation of `convert_timestamp` (source lines 231-239):
pad the captured fraction on the right with `'0'` up to six digits (the
`multiplier` is clamped at zero, so a longer fraction is converted whole,
not truncated), then `atol`.  `none` models undefined behaviour: a
missing or unmatched fraction leaves the 10-byte buffer uninitialised, and
ten or more captured digits overflow it. -/
def convert_timestamp_usec (str : String) : Option Int :=
  match fractionalField str with
  | none => none
  | some f =>
    if 10 ≤ f.length then none
    else
      let multiplier : Nat := 6 - f.length
      let padded := f ++ String.mk (List.replicate multiplier '0')
      some (digitsToNat padded.toList)

/-- The `timeval` filled by `convert_timestamp`.  The seconds field is
computed through `strptime`/`mktime` and the process timezone, which is
environment state outside this layer; no claim touches it, so the source
text is kept instead. -/
structure Timeval where
  raw : String
  tv_usec : Option Int
deriving DecidableEq

/-- `convert_timestamp` (source lines 221-240). -/
def convert_timestamp (str : String) : Timeval :=
  ⟨str, convert_timestamp_usec str⟩

/-- Does `pat` match at the head of the second list? -/
def matchesAt : List Char → List Char → Bool
  | [], _ => true
  | _ :: _, [] => false
  | p :: ps, c :: cs => p = c && matchesAt ps cs

/-- Scanning loop of `boost::replace_all`: the `Nat` argument is fuel
bounding the number of iterations; every iteration consumes at least one
character of the subject, so `s.length` fuel is always sufficient. -/
def replaceAllGo (pat rep : List Char) : Nat → List Char → List Char
  | _, [] => []
  | 0, s => s
  | fuel + 1, c :: cs =>
    if pat ≠ [] ∧ matchesAt pat (c :: cs) = true then
      rep ++ replaceAllGo pat rep fuel (List.drop (pat.length - 1) cs)
    else
      c :: replaceAllGo pat rep fuel cs

/-- `boost::replace_all`: scan left to right, replace every occurrence of
`pat` by `rep`, resuming after the inserted replacement (the replacement
text is not rescanned). -/
def replaceAll (pat rep s : List Char) : List Char :=
  replaceAllGo pat rep s.length s

/-- `JSONReading::escapeCharacter`: replace every occurrence of `pattern`
by a backslash followed by `pattern`. -/
def escapeCharacter (stringToEvaluate : String) (pattern : String) : String :=
  ⟨replaceAll pattern.toList ('\\' :: pattern.toList) stringToEvaluate.toList⟩

/-- `JSON_characters_to_be_escaped`: backslash first, then double quote. -/
def JSON_characters_to_be_escaped : List String := ["\\", "\""]

/-- A `DatapointValue`: a closed variant over integer, double, string, and
a nested datapoint vector tagged as a dictionary (`DatapointValue(vec,
true)`) or a list (`DatapointValue(vec, false)`).  A `Datapoint` is a name
paired with a value, so the nested vectors are association lists. -/
inductive DatapointValue where
  | intVal (v : Int)
  | floatVal (v : Rat)
  | strVal (s : String)
  | dpDict (dps : List (String × DatapointValue))
  | dpList (dps : List (String × DatapointValue))

/-- A `Reading` as built by the `JSONReading` constructor.  `m_id = none`
models the uninitialised `m_id` member when the source supplies no `id`;
`m_values` is the datapoint vector in insertion order. -/
structure Reading where
  m_has_id : Bool
  m_id : Option Nat
  m_asset : String
  m_userTimestamp : Timeval
  m_timestamp : Timeval
  m_uuid : String
  m_values : List (String × DatapointValue)

/-- The int/float dispatch shared verbatim by the `value` shortcut and the
`reading`-object number members (source lines 331-367 and 388-420): integer
if any integer flag is set (32-bit accessor when `IsInt`/`IsUint`, 64-bit
accessor otherwise), double if double-flagged, otherwise the
`UnsupportedNumericType` error for the named element. -/
def numberDP (name : String) (n : RjNum) :
    Except RErr (String × DatapointValue) :=
  if n.isInt || n.isUint || n.isInt64 || n.isUint64 then
    if n.isInt || n.isUint then Except.ok (name, DatapointValue.intVal n.getInt)
    else Except.ok (name, DatapointValue.intVal n.getInt64)
  else if n.isDouble then Except.ok (name, DatapointValue.floatVal n.getDouble)
  else Except.error (RErr.unsupportedNumericType name)

/-- The member loop of `createDictDPV` (source lines 247-274): per member,
a string yields a string datapoint; a number yields a double datapoint if
double-flagged and otherwise an integer datapoint through the 32-bit
accessor `GetInt()`; every other member (object, array, bool, null) leaves
`dpv` null and is dropped. -/
def dictLoop : List (String × JsonValue) → List (String × DatapointValue)
  | [] => []
  | p :: rest =>
    (match p.2 with
     | .str s => [(p.1, DatapointValue.strVal s)]
     | .num n =>
       [(p.1, if n.isDouble then DatapointValue.floatVal n.getDouble
              else DatapointValue.intVal n.getInt)]
     | _ => []) ++ dictLoop rest

/-- `createDictDPV` (source lines 243-290): run the member loop; a
non-empty vector becomes a dictionary-tagged `DatapointValue`, an empty one
yields a null pointer (`none`). -/
def createDictDPV (ms : List (String × JsonValue)) : Option DatapointValue :=
  let dpVec := dictLoop ms
  if dpVec.length > 0 then some (DatapointValue.dpDict dpVec) else none

/-- The `kArrayType` element loop (source lines 425-438): every element
must be an object, else the `ArrayElementNotObject` error; each object
element goes through `createDictDPV` and the result pointer is dereferenced
unconditionally when building the `unnamed_list_elem#` datapoint — a null
result (element with no convertible member) is a null-pointer dereference,
modelled as `RErr.nullDeref`. -/
def arrayElemDPs : List JsonValue → Except RErr (List (String × DatapointValue))
  | [] => Except.ok []
  | e :: rest =>
    match e with
    | .obj ems =>
      match createDictDPV ems with
      | some dpv =>
        (arrayElemDPs rest).map (fun tl => ("unnamed_list_elem#", dpv) :: tl)
      | none => Except.error RErr.nullDeref
    | _ => Except.error RErr.arrayElementNotObject

/-- The `reading`-object member loop (source lines 375-472): dispatch on
the member's JSON type — string and number as at top level, an array
through `arrayElemDPs` combined into one `value` datapoint holding a
list-tagged value (`EmptyArrayPayload` when the collected vector is empty),
and any other type the `UnsupportedMemberType` error. -/
def readingObjectDPs :
    List (String × JsonValue) → Except RErr (List (String × DatapointValue))
  | [] => Except.ok []
  | p :: rest =>
    match p.2 with
    | .str s =>
      (readingObjectDPs rest).map (fun tl => (p.1, DatapointValue.strVal s) :: tl)
    | .num n =>
      match numberDP p.1 n with
      | .ok dp => (readingObjectDPs rest).map (fun tl => dp :: tl)
      | .error e => Except.error e
    | .arr elems =>
      match arrayElemDPs elems with
      | .ok dpVec =>
        if dpVec.length > 0 then
          (readingObjectDPs rest).map
            (fun tl => ("value", DatapointValue.dpList dpVec) :: tl)
        else Except.error RErr.emptyArrayPayload
      | .error e => Except.error e
    | _ => Except.error (RErr.unsupportedMemberType p.1)

/-- The quarantine fallback for a `reading` member that is not an object
(source lines 480-525): a string is escaped (backslash first, then double
quote) and stored under the original asset name; a number is stored under
the original asset name with the same integer/float dispatch; anything
else produces no datapoint at all. -/
def scalarDPs (asset : String) (v : JsonValue) :
    List (String × DatapointValue) :=
  match v with
  | .str s =>
    [(asset, DatapointValue.strVal
        (JSON_characters_to_be_escaped.foldl escapeCharacter s))]
  | .num n =>
    if n.isInt || n.isUint || n.isInt64 || n.isUint64 then
      [(asset, DatapointValue.intVal
          (if n.isInt || n.isUint then n.getInt else n.getInt64))]
    else if n.isDouble then [(asset, DatapointValue.floatVal n.getDouble)]
    else []
  | _ => []

/-- The header part of the `JSONReading` constructor (source lines
303-324): optional `id` through `GetUint`, mandatory `asset_code`,
`user_ts`, `read_key` (an absent or mistyped member is a rapidjson
assertion), optional `ts` defaulting to the user timestamp.  The datapoint
vector starts empty. -/
def readHeader (json : List (String × JsonValue)) : Except RErr Reading :=
  match (match getMember json "id" with
         | some v => (rjGetUint v).map (fun u => (true, some u))
         | none => Except.ok (false, (none : Option Nat))) with
  | .error e => Except.error e
  | .ok idPair =>
    match getStringMember json "asset_code" with
    | .error e => Except.error e
    | .ok asset =>
      match getStringMember json "user_ts" with
      | .error e => Except.error e
      | .ok uts =>
        match (match getMember json "ts" with
               | some (.str s) => Except.ok (convert_timestamp s)
               | some _ => Except.error (RErr.rjAssert "ts")
               | none => Except.ok (convert_timestamp uts)) with
        | .error e => Except.error e
        | .ok sysTs =>
          match getStringMember json "read_key" with
          | .error e => Except.error e
          | .ok uuid =>
            Except.ok ⟨idPair.1, idPair.2, asset, convert_timestamp uts,
                       sysTs, uuid, []⟩

/-- The `JSONReading` constructor (source lines 301-533): header fields,
then the payload.  A numeric `value` member yields exactly one datapoint
named `value`; otherwise the `reading` member is required (absent is a
rapidjson assertion): an object goes through the member loop, anything
else through the quarantine fallback, which also rewrites the asset name
to `error_invalid_reading` + `_` + the original asset name. -/
def JSONReading (json : List (String × JsonValue)) : Except RErr Reading :=
  match readHeader json with
  | .error e => Except.error e
  | .ok r =>
    match getMember json "value" with
    | some (.num n) =>
      match numberDP "value" n with
      | .ok dp => Except.ok { r with m_values := [dp] }
      | .error e => Except.error e
    | _ =>
      match getMember json "reading" with
      | none => Except.error (RErr.rjAssert "reading")
      | some (.obj ms) =>
        match readingObjectDPs ms with
        | .ok dps => Except.ok { r with m_values := dps }
        | .error e => Except.error e
      | some v =>
        Except.ok { r with
          m_asset := "error_invalid_reading" ++ "_" ++ r.m_asset,
          m_values := scalarDPs r.m_asset v }

/-- A `ReadingSet`: record count, highest identifier seen (`none` models
the indeterminate value copied from a reading without an `id`), and the
owned reading sequence. -/
structure ReadingSet where
  m_count : Nat
  m_last_id : Option Nat
  m_readings : List Reading

/-- The element loop of the `ReadingSet` constructor (source lines
109-132), with its running state (accumulated readings, the `rows` counter
incremented only when the document used `readings`, and the `id` variable
updated from each constructed reading). -/
def readRows (docHasReadings : Bool) (acc : List Reading) (rows : Nat)
    (lastId : Option Nat) :
    List JsonValue → Except RErr (List Reading × Nat × Option Nat)
  | [] => Except.ok (acc, rows, lastId)
  | e :: rest =>
    match e with
    | .obj rms =>
      match JSONReading rms with
      | .ok r =>
        readRows docHasReadings (acc ++ [r])
          (if docHasReadings then rows + 1 else rows) r.m_id rest
      | .error err => Except.error err
    | _ => Except.error RErr.readingNotObject

/-- The `ReadingSet` constructor from a parsed document (source lines
62-146): require `rows` or `readings`; when `count` and `rows` are both
present read `count` through `GetUint` and short-circuit to an empty set
if it is zero; then the located value must be an array, whose elements are
converted in order; with `readings` the count is recomputed from the
element counter, otherwise the header count (or zero) stands.
(`HasMember` on a non-object document is a rapidjson assertion.) -/
def ReadingSet.ofJson (doc : JsonValue) : Except RErr ReadingSet :=
  match doc with
  | .obj ms =>
    let docHasRows := (getMember ms "rows").isSome
    let docHasReadings := (getMember ms "readings").isSome
    if !docHasRows && !docHasReadings then
      Except.error RErr.missingReadingsArray
    else
      match (match getMember ms "count", docHasRows with
             | some cv, true => (rjGetUint cv).map some
             | _, _ => Except.ok none) with
      | .error e => Except.error e
      | .ok mc =>
        if mc = some 0 then Except.ok ⟨0, some 0, []⟩
        else
          match (if docHasRows then getMember ms "rows"
                 else getMember ms "readings") with
          | some (.arr elems) =>
            (readRows docHasReadings [] 0 (some 0) elems).map
              (fun st =>
                ⟨(if docHasReadings then st.2.1 else mc.getD 0), st.2.2, st.1⟩)
          | _ => Except.error RErr.readingsNotArray
  | _ => Except.error (RErr.rjAssert "HasMember")

/-- `ReadingSet::append(const vector<Reading *>&)` (source lines 185-193):
push each reading and bump `m_count` once per element. -/
def ReadingSet.appendVec (s : ReadingSet) (readings : List Reading) :
    ReadingSet :=
  readings.foldl
    (fun acc r =>
      { acc with m_readings := acc.m_readings ++ [r],
                 m_count := acc.m_count + 1 }) s

/-- `ReadingSet::clear` (source lines 212-216): drop the vector without
releasing the readings (`m_count` is untouched). -/
def ReadingSet.clear (s : ReadingSet) : ReadingSet :=
  { s with m_readings := [] }

/-- `ReadingSet::append(ReadingSet&)` (source lines 175-180): append the
other set's reading vector to this set, then clear the other set.  Both
post-states are returned. -/
def ReadingSet.append (a b : ReadingSet) : ReadingSet × ReadingSet :=
  (a.appendVec b.m_readings, b.clear)

/-- Well-formedness of the optional reading fields: `id`, when present, is
a 32-bit unsigned integer, and `ts`, when present, is a string — otherwise
the header accessors fire a rapidjson assertion before the payload is
reached. -/
def optFieldsOk (json : List (String × JsonValue)) : Prop :=
  (getMember json "id" = none ∨
    ∃ k : Nat, k < 2 ^ 32 ∧
      getMember json "id" = some (.num (.intNum (k : Int)))) ∧
  (getMember json "ts" = none ∨ ∃ s : String, getMember json "ts" = some (.str s))

/-- The reading object carries no numeric `value` member (either no
`value` member at all, or one that is not a number), so the single-numeric
shortcut is not taken. -/
def noNumericValue (json : List (String × JsonValue)) : Prop :=
  ∀ n : RjNum, getMember json "value" ≠ some (.num n)

/-- When the document has a `rows` member, its `count` member (if any) is
a nonzero 32-bit unsigned integer — so `GetUint` succeeds and the
empty-set short-circuit is not taken. -/
def countHeaderOk (ms : List (String × JsonValue)) : Prop :=
  (getMember ms "rows").isSome = true →
    match getMember ms "count" with
    | none => True
    | some (.num (.intNum i)) => 0 < i ∧ i ≤ 2 ^ 32 - 1
    | some _ => False

/-- A minimal well-formed reading object whose payload is the numeric
literal `value: 42`. -/
def robj : List (String × JsonValue) :=
  [("asset_code", .str "a"), ("user_ts", .str "2020-01-02 03:04:05"),
   ("read_key", .str "k"), ("value", .num (.intNum 42))]

/-- A query-style document whose declared `count` (2) differs from the
length of its `rows` array (1). -/
def c1doc : JsonValue :=
  .obj [("count", .num (.intNum 2)), ("rows", .arr [.obj robj])]

/-- A notification-style document with one reading under `readings`. -/
def w1ms : List (String × JsonValue) := [("readings", .arr [.obj robj])]

/-- The reading built from `robj`. -/
def w1reading : Reading :=
  ⟨false, none, "a", convert_timestamp "2020-01-02 03:04:05",
   convert_timestamp "2020-01-02 03:04:05", "k",
   [("value", DatapointValue.intVal 42)]⟩

/-- The set built from `w1ms`. -/
def w1set : ReadingSet := ⟨1, none, [w1reading]⟩

/-- A reading whose `reading` member is the bare string `"oops"`. -/
def c5obj : List (String × JsonValue) :=
  [("asset_code", .str "temp"), ("user_ts", .str "2020-01-02 03:04:05"),
   ("read_key", .str "k"), ("reading", .str "oops")]

/-- A reading whose structured payload contains an array with an empty
object element — `createDictDPV` yields a null pointer for it and the
array loop dereferences that pointer. -/
def c6bad : List (String × JsonValue) :=
  [("asset_code", .str "a"), ("user_ts", .str "2020-01-02 03:04:05"),
   ("read_key", .str "k"), ("reading", .obj [("y", .arr [.obj []])])]

/-- The spec's exemplar structured payload
`reading: { x: 1, y: [ {a:1}, {b:2} ] }`. -/
def c6good : List (String × JsonValue) :=
  [("asset_code", .str "a"), ("user_ts", .str "2020-01-02 03:04:05"),
   ("read_key", .str "k"),
   ("reading", .obj [("x", .num (.intNum 1)),
                     ("y", .arr [.obj [("a", .num (.intNum 1))],
                                 .obj [("b", .num (.intNum 2))]])])]

/-- A reading whose `reading` member is a boolean. -/
def c10obj : List (String × JsonValue) :=
  [("asset_code", .str "a"), ("user_ts", .str "2020-01-02 03:04:05"),
   ("read_key", .str "k"), ("reading", .bool true)]

/-- The `value` list the `JSONReading` constructor builds from `c6good`. -/
def c6goodValues : List (String × DatapointValue) :=
  [("x", DatapointValue.intVal 1),
   ("value", DatapointValue.dpList
     [("unnamed_list_elem#", DatapointValue.dpDict [("a", DatapointValue.intVal 1)]),
      ("unnamed_list_elem#", DatapointValue.dpDict [("b", DatapointValue.intVal 2)])])]

theorem appendVec_spec (readings : List Reading) :
    ∀ s : ReadingSet,
      (s.appendVec readings).m_readings = s.m_readings ++ readings ∧
      (s.appendVec readings).m_count = s.m_count + readings.length := by
  induction readings with
  | nil => intro s; simp [ReadingSet.appendVec]
  | cons r rest ih =>
    intro s
    have h := ih { s with m_readings := s.m_readings ++ [r],
                          m_count := s.m_count + 1 }
    simp only [ReadingSet.appendVec, List.foldl] at h ⊢
    refine ⟨?_, ?_⟩
    · rw [h.1]; simp
    · rw [h.2]; simp; omega

theorem dictLoop_append (xs ys : List (String × JsonValue)) :
    dictLoop (xs ++ ys) = dictLoop xs ++ dictLoop ys := by
  induction xs with
  | nil => simp [dictLoop]
  | cons p rest ih => simp [dictLoop, ih]

theorem readRows_spec (dHR : Bool) (elems : List JsonValue) :
    ∀ acc rows0 lid0 rds rowsF lidF,
      readRows dHR acc rows0 lid0 elems = Except.ok (rds, rowsF, lidF) →
      rds.length = acc.length + elems.length ∧
      rowsF = (if dHR then rows0 + elems.length else rows0) := by
  induction elems with
  | nil =>
    intro acc rows0 lid0 rds rowsF lidF h
    simp [readRows] at h
    obtain ⟨h1, h2, _⟩ := h
    subst h1; subst h2
    cases dHR <;> simp
  | cons e rest ih =>
    intro acc rows0 lid0 rds rowsF lidF h
    cases e with
    | obj rms =>
      cases hjr : JSONReading rms with
      | ok r =>
        simp only [readRows, hjr] at h
        have h2 := ih (acc ++ [r]) (if dHR then rows0 + 1 else rows0)
          r.m_id rds rowsF lidF h
        refine ⟨?_, ?_⟩
        · have := h2.1; simp at this; simp [this]; omega
        · have := h2.2; cases dHR <;> simp at this ⊢ <;> omega
      | error err => simp [readRows, hjr] at h
    | null => simp [readRows] at h
    | bool b => simp [readRows] at h
    | num n => simp [readRows] at h
    | str s => simp [readRows] at h
    | arr es => simp [readRows] at h

theorem readHeader_ok (json : List (String × JsonValue)) (a u k : String)
    (ha : getMember json "asset_code" = some (.str a))
    (hu : getMember json "user_ts" = some (.str u))
    (hk : getMember json "read_key" = some (.str k))
    (hopt : optFieldsOk json) :
    ∃ r, readHeader json = Except.ok r ∧ r.m_asset = a ∧ r.m_values = [] := by
  obtain ⟨hid, hts⟩ := hopt
  rcases hid with hid | ⟨i, hi, hid⟩
  · rcases hts with hts | ⟨s, hts⟩
    · refine ⟨⟨false, none, a, convert_timestamp u, convert_timestamp u, k, []⟩,
        ?_, rfl, rfl⟩
      simp [readHeader, ha, hu, hk, hid, hts, getStringMember]
    · refine ⟨⟨false, none, a, convert_timestamp u, convert_timestamp s, k, []⟩,
        ?_, rfl, rfl⟩
      simp [readHeader, ha, hu, hk, hid, hts, getStringMember]
  · have hi' : i ≤ 4294967295 := by omega
    rcases hts with hts | ⟨s, hts⟩
    · refine ⟨⟨true, some i, a, convert_timestamp u, convert_timestamp u, k, []⟩,
        ?_, rfl, rfl⟩
      simp [readHeader, ha, hu, hk, hid, hts, getStringMember, rjGetUint, hi', Except.map]
    · refine ⟨⟨true, some i, a, convert_timestamp u, convert_timestamp s, k, []⟩,
        ?_, rfl, rfl⟩
      simp [readHeader, ha, hu, hk, hid, hts, getStringMember, rjGetUint, hi', Except.map]

/-- C2: for every document having both a `rows` member (of any shape) and a
`count` member whose value is the integer zero, construction short-circuits
to the empty set — count zero, highest identifier zero, no readings — so
the result is independent of the contents of `rows` and no element of it is
parsed. -/
theorem C2_rows_count_zero (ms : List (String × JsonValue)) (v : JsonValue)
    (hrows : getMember ms "rows" = some v)
    (hcount : getMember ms "count" = some (.num (.intNum 0))) :
    ReadingSet.ofJson (.obj ms) = Except.ok ⟨0, some 0, []⟩ := by
  have hget : rjGetUint (JsonValue.num (RjNum.intNum 0)) = Except.ok 0 := rfl
  simp [ReadingSet.ofJson, hrows, hcount, hget, Except.map]

/-- C2 witness: a concrete document whose `rows` member is not even an
array still yields the empty set under the `count = 0` short-circuit. -/
theorem C2_witness :
    ReadingSet.ofJson
        (.obj [("rows", .str "x"), ("count", .num (.intNum 0))]) =
      Except.ok ⟨0, some 0, []⟩ :=
  C2_rows_count_zero [("rows", .str "x"), ("count", .num (.intNum 0))]
    (JsonValue.str "x") rfl rfl

/-- C3: evaluation of the timestamp normaliser at the spec's exemplar
inputs.  A one-digit fraction is zero-padded to 500000 as claimed, but a
seven-digit fraction is converted whole to 1234567 — outside the claimed
0–999999 range, not truncated to 123456 — and a missing fraction leaves
the microsecond buffer uninitialised (modelled `none`) instead of 0. -/
theorem C3_convert_timestamp_eval :
    convert_timestamp "2020-01-02 03:04:05" =
      ⟨"2020-01-02 03:04:05", none⟩ ∧
    convert_timestamp "2020-01-02 03:04:05.5" =
      ⟨"2020-01-02 03:04:05.5", some 500000⟩ ∧
    convert_timestamp "2020-01-02 03:04:05.1234567" =
      ⟨"2020-01-02 03:04:05.1234567", some 1234567⟩ ∧
    ((1234567 : Int) ≤ 999999 → False) :=
  ⟨rfl, rfl, rfl, by decide⟩

/-- C6: the array payload path evaluated.  The spec's exemplar
`reading: { x: 1, y: [ {a:1}, {b:2} ] }` yields the claimed two
datapoints; an empty array fails with the `EmptyArrayPayload` error and a
non-object element with the `ArrayElementNotObject` error — but an array
whose element is an object with no convertible member makes
`createDictDPV` return a null pointer that the loop dereferences
(`RErr.nullDeref`, undefined behaviour), instead of converting the
element as the claim states. -/
theorem C6_array_payload_eval :
    JSONReading c6bad = Except.error RErr.nullDeref ∧
    (JSONReading c6good).map Reading.m_values = Except.ok c6goodValues ∧
    JSONReading [("asset_code", .str "a"),
                 ("user_ts", .str "2020-01-02 03:04:05"),
                 ("read_key", .str "k"), ("reading", .obj [("y", .arr [])])] =
      Except.error RErr.emptyArrayPayload ∧
    JSONReading [("asset_code", .str "a"),
                 ("user_ts", .str "2020-01-02 03:04:05"),
                 ("read_key", .str "k"),
                 ("reading", .obj [("y", .arr [.num (.intNum 1)])])] =
      Except.error RErr.arrayElementNotObject :=
  ⟨rfl, rfl, rfl, rfl⟩

/-- C9: appending set `b` into set `a` transfers all of `b`'s records to
the end of `a`'s sequence in order, leaves `b` with zero records, and
increases `a`'s record count (both the sequence length and `m_count`) by
the number of records `b` held. -/
theorem C9_append_moves_all (a b : ReadingSet) :
    (ReadingSet.append a b).1.m_readings = a.m_readings ++ b.m_readings ∧
    (ReadingSet.append a b).2.m_readings = [] ∧
    (ReadingSet.append a b).1.m_readings.length =
      a.m_readings.length + b.m_readings.length ∧
    (ReadingSet.append a b).1.m_count = a.m_count + b.m_readings.length := by
  have h := appendVec_spec b.m_readings a
  refine ⟨h.1, rfl, ?_, h.2⟩
  rw [show (ReadingSet.append a b).1 = a.appendVec b.m_readings from rfl, h.1]
  simp

/-- C1 counterexample: the document `{count: 2, rows: [<one reading>]}`
constructs successfully with `m_count = 2` but a single record, so the
count does not equal the number of records in the sequence. -/
theorem C1_counterexample :
    (ReadingSet.ofJson c1doc).map ReadingSet.m_count = Except.ok 2 ∧
    (ReadingSet.ofJson c1doc).map (fun s => s.m_readings.length) =
      Except.ok 1 ∧
    (2 : Nat) ≠ 1 :=
  ⟨rfl, rfl, by decide⟩

/-- C8 counterexample: in `{count: 0, rows: 5}` the located `rows` value
is not an array, yet construction succeeds with the empty set (the
`count = 0` short-circuit returns before the array check) instead of
failing with the `ReadingsNotArray` error. -/
theorem C8_counterexample :
    ReadingSet.ofJson
        (.obj [("count", .num (.intNum 0)), ("rows", .num (.intNum 5))]) =
      Except.ok ⟨0, some 0, []⟩ :=
  rfl

/-- C7 counterexample: on the member value `2 ^ 40` the dictionary builder
emits the integer 0 (it always reads through the 32-bit accessor
`GetInt()`), while the top-level dispatch emits `2 ^ 40` through
`GetInt64()` — so the builder does not use the same integer/float dispatch
as the top level. -/
theorem C7_counterexample :
    createDictDPV [("a", .num (.intNum (2 ^ 40)))] =
      some (.dpDict [("a", DatapointValue.intVal 0)]) ∧
    numberDP "a" (.intNum (2 ^ 40)) =
      Except.ok ("a", DatapointValue.intVal (2 ^ 40)) ∧
    (0 : Int) ≠ 2 ^ 40 :=
  ⟨rfl, rfl, by decide⟩

/-- C7 (amended): the dictionary builder emits one datapoint per string-
or number-valued member, where a number yields a float when double-flagged
and otherwise an integer read through the 32-bit accessor (agreeing with
the top-level dispatch exactly for numbers carrying the 32-bit flags); it
silently drops array-valued and object-valued members without failing; and
with no converted member it yields no value at all rather than an empty
dictionary. -/
theorem C7_dict_builder :
    (∀ pre post nm elems,
      dictLoop (pre ++ (nm, JsonValue.arr elems) :: post) =
        dictLoop (pre ++ post)) ∧
    (∀ pre post nm ms,
      dictLoop (pre ++ (nm, JsonValue.obj ms) :: post) =
        dictLoop (pre ++ post)) ∧
    (∀ nm s rest, dictLoop ((nm, JsonValue.str s) :: rest) =
      (nm, DatapointValue.strVal s) :: dictLoop rest) ∧
    (∀ nm n rest, n.isDouble = true →
      dictLoop ((nm, JsonValue.num n) :: rest) =
        (nm, DatapointValue.floatVal n.getDouble) :: dictLoop rest) ∧
    (∀ nm n rest, n.isDouble = false →
      dictLoop ((nm, JsonValue.num n) :: rest) =
        (nm, DatapointValue.intVal n.getInt) :: dictLoop rest) ∧
    (∀ nm n, (n.isInt || n.isUint) = true →
      numberDP nm n = Except.ok (nm, DatapointValue.intVal n.getInt)) ∧
    (∀ ms, dictLoop ms = [] → createDictDPV ms = none) ∧
    (∀ ms, dictLoop ms ≠ [] →
      createDictDPV ms = some (DatapointValue.dpDict (dictLoop ms))) := by
  refine ⟨?_, ?_, ?_, ?_, ?_, ?_, ?_, ?_⟩
  · intro pre post nm elems
    simp [dictLoop_append, dictLoop]
  · intro pre post nm ms
    simp [dictLoop_append, dictLoop]
  · intro nm s rest
    simp [dictLoop]
  · intro nm n rest h
    simp [dictLoop, h]
  · intro nm n rest h
    simp [dictLoop, h]
  · intro nm n h
    have h1 : n.isInt = true ∨ n.isUint = true := by simpa using h
    rcases h1 with h1 | h1 <;> simp [numberDP, h1]
  · intro ms h
    simp [createDictDPV, h]
  · intro ms h
    simp [createDictDPV, List.length_pos.mpr h]

/-- C7 witness: an array-valued member is dropped (alone it produces the
empty member list, hence no value), and an in-range number agrees with the
top-level dispatch. -/
theorem C7_witness :
    dictLoop [("a", JsonValue.arr [])] = [] ∧
    numberDP "v" (RjNum.intNum 7) = Except.ok ("v", DatapointValue.intVal 7) ∧
    createDictDPV [("a", JsonValue.arr [])] = none := by
  refine ⟨?_, ?_, ?_⟩
  · have h := C7_dict_builder.1 [] [] "a" []
    simp only [List.nil_append] at h
    rw [h]
    rfl
  · have h := C7_dict_builder.2.2.2.2.2.1 "v" (RjNum.intNum 7) (by decide)
    have h7 : RjNum.getInt (RjNum.intNum 7) = 7 := rfl
    rw [h7] at h
    exact h
  · exact C7_dict_builder.2.2.2.2.2.2.1 [("a", JsonValue.arr [])] rfl

/-- C1 (amended): for every document that uses the `readings` key (and has
no `rows` member), a successful construction yields a count equal to the
number of elements of the `readings` array, which also equals the number
of records in the sequence — any `count` member elsewhere in the document
is ignored.  (On the `rows` path the supplied `count`, or zero when
absent, is kept verbatim and need not match the number of records.) -/
theorem C1_readings_count (ms : List (String × JsonValue))
    (elems : List JsonValue) (s : ReadingSet)
    (hrows : getMember ms "rows" = none)
    (hreadings : getMember ms "readings" = some (.arr elems))
    (hok : ReadingSet.ofJson (.obj ms) = Except.ok s) :
    s.m_count = elems.length ∧ s.m_readings.length = elems.length := by
  cases hc : getMember ms "count" with
  | none =>
    simp only [ReadingSet.ofJson, hrows, hreadings, hc, Option.isSome_none,
      Option.isSome_some, Bool.not_false, Bool.not_true, Bool.and_false,
      Bool.false_and, if_false, Bool.false_eq_true] at hok
    cases hrr : readRows true [] 0 (some 0) elems with
    | ok st =>
      rw [hrr] at hok
      simp [Except.map] at hok
      subst hok
      have hsp := readRows_spec true elems [] 0 (some 0) st.1 st.2.1 st.2.2
        (by rw [hrr])
      simp at hsp ⊢
      exact ⟨hsp.2, hsp.1⟩
    | error e =>
      rw [hrr] at hok
      simp [Except.map] at hok
  | some cv =>
    simp only [ReadingSet.ofJson, hrows, hreadings, hc, Option.isSome_none,
      Option.isSome_some, Bool.not_false, Bool.not_true, Bool.and_false,
      Bool.false_and, if_false, Bool.false_eq_true] at hok
    cases hrr : readRows true [] 0 (some 0) elems with
    | ok st =>
      rw [hrr] at hok
      simp [Except.map] at hok
      subst hok
      have hsp := readRows_spec true elems [] 0 (some 0) st.1 st.2.1 st.2.2
        (by rw [hrr])
      simp at hsp ⊢
      exact ⟨hsp.2, hsp.1⟩
    | error e =>
      rw [hrr] at hok
      simp [Except.map] at hok

/-- C1 witness: the one-reading notification document `w1ms` yields count
1 and one record. -/
theorem C1_witness : w1set.m_count = 1 ∧ w1set.m_readings.length = 1 :=
  C1_readings_count w1ms [JsonValue.obj robj] w1set rfl rfl rfl

/-- C4: for every reading object (with well-formed header fields) whose
`value` member is a number, construction yields exactly one datapoint
named `value`: an integer when any integer flag is set (32-bit accessor
under the 32-bit flags, 64-bit accessor otherwise), a double value when
double-flagged, and the `UnsupportedNumericType` error when the number is
representable as neither. -/
theorem C4_value_numeric (json : List (String × JsonValue)) (a u k : String)
    (n : RjNum)
    (ha : getMember json "asset_code" = some (.str a))
    (hu : getMember json "user_ts" = some (.str u))
    (hk : getMember json "read_key" = some (.str k))
    (hopt : optFieldsOk json)
    (hv : getMember json "value" = some (.num n)) :
    ((n.isInt || n.isUint || n.isInt64 || n.isUint64) = true →
      ∃ r, JSONReading json = Except.ok r ∧
        r.m_values = [("value", DatapointValue.intVal
          (if n.isInt || n.isUint then n.getInt else n.getInt64))]) ∧
    ((n.isInt || n.isUint || n.isInt64 || n.isUint64) = false →
      n.isDouble = true →
      ∃ r, JSONReading json = Except.ok r ∧
        r.m_values = [("value", DatapointValue.floatVal n.getDouble)]) ∧
    ((n.isInt || n.isUint || n.isInt64 || n.isUint64) = false →
      n.isDouble = false →
      JSONReading json = Except.error (RErr.unsupportedNumericType "value")) := by
  obtain ⟨r0, hr0, hra, hrv⟩ := readHeader_ok json a u k ha hu hk hopt
  refine ⟨?_, ?_, ?_⟩
  · intro hflags
    cases h32 : (n.isInt || n.isUint) with
    | true =>
      refine ⟨{ r0 with m_values :=
        [("value", DatapointValue.intVal n.getInt)] }, ?_, by simp [h32]⟩
      simp [JSONReading, hr0, hv, numberDP, hflags, h32]
    | false =>
      have h64 : n.isInt64 = true ∨ n.isUint64 = true := by
        cases hi : n.isInt64 <;> cases hu64 : n.isUint64 <;> simp_all
      refine ⟨{ r0 with m_values :=
        [("value", DatapointValue.intVal n.getInt64)] }, ?_, by simp [h32]⟩
      rcases h64 with h | h <;>
        simp [JSONReading, hr0, hv, numberDP, hflags, h32, h]
  · intro hflags hdbl
    refine ⟨{ r0 with m_values :=
      [("value", DatapointValue.floatVal n.getDouble)] }, ?_, by simp⟩
    simp [JSONReading, hr0, hv, numberDP, hflags, hdbl]
  · intro hflags hdbl
    simp [JSONReading, hr0, hv, numberDP, hflags, hdbl]

/-- C4 witness: `value: 42` yields exactly one datapoint named `value`
holding the integer 42 (not a float). -/
theorem C4_witness :
    ∃ r, JSONReading robj = Except.ok r ∧
      r.m_values = [("value", DatapointValue.intVal 42)] := by
  have h := (C4_value_numeric robj "a" "2020-01-02 03:04:05" "k"
    (RjNum.intNum 42) rfl rfl rfl ⟨Or.inl rfl, Or.inl rfl⟩ rfl).1 (by decide)
  obtain ⟨r, h1, h2⟩ := h
  refine ⟨r, h1, ?_⟩
  rw [h2]
  rfl

/-- C5: for every reading object (with well-formed header fields) without
a numeric `value` member whose `reading` member is a string, construction
succeeds (never errors): the string, with backslashes escaped first and
double quotes second, becomes a single datapoint named with the original
asset name, and the record's asset name is rewritten to the quarantine
sentinel `error_invalid_reading` + `_` + the original asset name. -/
theorem C5_reading_string (json : List (String × JsonValue)) (a u k s : String)
    (ha : getMember json "asset_code" = some (.str a))
    (hu : getMember json "user_ts" = some (.str u))
    (hk : getMember json "read_key" = some (.str k))
    (hopt : optFieldsOk json)
    (hnv : noNumericValue json)
    (hr : getMember json "reading" = some (.str s)) :
    ∃ r, JSONReading json = Except.ok r ∧
      r.m_asset = "error_invalid_reading" ++ "_" ++ a ∧
      r.m_values = [(a, DatapointValue.strVal
        (escapeCharacter (escapeCharacter s "\\") "\""))] := by
  obtain ⟨r0, hr0, hra, hrv⟩ := readHeader_ok json a u k ha hu hk hopt
  have hmain : JSONReading json = Except.ok { r0 with
      m_asset := "error_invalid_reading" ++ "_" ++ r0.m_asset,
      m_values := scalarDPs r0.m_asset (.str s) } := by
    cases hval : getMember json "value" with
    | none => simp [JSONReading, hr0, hval, hr]
    | some v =>
      cases v with
      | num n => exact absurd hval (hnv n)
      | null => simp [JSONReading, hr0, hval, hr]
      | bool b => simp [JSONReading, hr0, hval, hr]
      | str s2 => simp [JSONReading, hr0, hval, hr]
      | arr es => simp [JSONReading, hr0, hval, hr]
      | obj ms2 => simp [JSONReading, hr0, hval, hr]
  refine ⟨_, hmain, ?_, ?_⟩
  · simp [hra]
  · simp [scalarDPs, JSON_characters_to_be_escaped, hra]

/-- C5 witness: `reading: "oops"` with `asset_code: "temp"` yields the
quarantined record of the spec's example. -/
theorem C5_witness :
    ∃ r, JSONReading c5obj = Except.ok r ∧
      r.m_asset = "error_invalid_reading_temp" ∧
      r.m_values = [("temp", DatapointValue.strVal "oops")] := by
  obtain ⟨r, h1, h2, h3⟩ := C5_reading_string c5obj "temp"
    "2020-01-02 03:04:05" "k" "oops" rfl rfl rfl ⟨Or.inl rfl, Or.inl rfl⟩
    (fun n h => Option.noConfusion h) rfl
  refine ⟨r, h1, ?_, ?_⟩
  · rw [h2]; rfl
  · rw [h3]; rfl

/-- C10: for every reading object (with well-formed header fields) without
a numeric `value` member whose `reading` member is present but neither an
object, nor a string, nor a number (a null, boolean, or array),
construction succeeds without error, produces no datapoint at all, and
still rewrites the asset name with the quarantine sentinel prefix plus an
underscore and the original asset name. -/
theorem C10_reading_other_scalar (json : List (String × JsonValue))
    (a u k : String) (v : JsonValue)
    (ha : getMember json "asset_code" = some (.str a))
    (hu : getMember json "user_ts" = some (.str u))
    (hk : getMember json "read_key" = some (.str k))
    (hopt : optFieldsOk json)
    (hnv : noNumericValue json)
    (hr : getMember json "reading" = some v)
    (hshape : v = JsonValue.null ∨ (∃ b, v = JsonValue.bool b) ∨
      (∃ es, v = JsonValue.arr es)) :
    ∃ r, JSONReading json = Except.ok r ∧
      r.m_asset = "error_invalid_reading" ++ "_" ++ a ∧
      r.m_values = [] := by
  obtain ⟨r0, hr0, hra, hrv⟩ := readHeader_ok json a u k ha hu hk hopt
  have hmain : JSONReading json = Except.ok { r0 with
      m_asset := "error_invalid_reading" ++ "_" ++ r0.m_asset,
      m_values := scalarDPs r0.m_asset v } := by
    rcases hshape with h | ⟨b, h⟩ | ⟨es, h⟩ <;> subst h <;>
      · cases hval : getMember json "value" with
        | none => simp [JSONReading, hr0, hval, hr]
        | some w =>
          cases w with
          | num n => exact absurd hval (hnv n)
          | null => simp [JSONReading, hr0, hval, hr]
          | bool b2 => simp [JSONReading, hr0, hval, hr]
          | str s2 => simp [JSONReading, hr0, hval, hr]
          | arr es2 => simp [JSONReading, hr0, hval, hr]
          | obj ms2 => simp [JSONReading, hr0, hval, hr]
  refine ⟨_, hmain, ?_, ?_⟩
  · simp [hra]
  · rcases hshape with h | ⟨b, h⟩ | ⟨es, h⟩ <;> subst h <;> simp [scalarDPs]

/-- C10 witness: `reading: true` yields a quarantined record with an empty
datapoint sequence. -/
theorem C10_witness :
    ∃ r, JSONReading c10obj = Except.ok r ∧
      r.m_asset = "error_invalid_reading_a" ∧ r.m_values = [] := by
  obtain ⟨r, h1, h2, h3⟩ := C10_reading_other_scalar c10obj "a"
    "2020-01-02 03:04:05" "k" (JsonValue.bool true) rfl rfl rfl
    ⟨Or.inl rfl, Or.inl rfl⟩ (fun n h => Option.noConfusion h) rfl
    (Or.inr (Or.inl ⟨true, rfl⟩))
  refine ⟨r, h1, ?_, h3⟩
  rw [h2]; rfl

/-- C8 (amended): a document with neither a `rows` nor a `readings` member
fails with the `MissingReadingsArray` error; a document whose located
`rows`/`readings` value is not an array fails with the `ReadingsNotArray`
error, except when the `rows` + `count = 0` short-circuit returns the
empty set first (the `count` header, when present on the `rows` path, is
assumed here to be a nonzero 32-bit unsigned integer so that the
short-circuit is not taken and `GetUint` does not abort). -/
theorem C8_missing_or_not_array :
    (∀ ms : List (String × JsonValue), getMember ms "rows" = none →
      getMember ms "readings" = none →
      ReadingSet.ofJson (.obj ms) = Except.error RErr.missingReadingsArray) ∧
    (∀ (ms : List (String × JsonValue)) (v : JsonValue),
      (if (getMember ms "rows").isSome then getMember ms "rows" = some v
       else getMember ms "readings" = some v) →
      (∀ elems, v ≠ JsonValue.arr elems) →
      countHeaderOk ms →
      ReadingSet.ofJson (.obj ms) = Except.error RErr.readingsNotArray) := by
  constructor
  · intro ms h1 h2
    simp [ReadingSet.ofJson, h1, h2]
  · intro ms v hloc hnarr hcount
    cases hr : getMember ms "rows" with
    | some rv =>
      rw [hr] at hloc
      simp only [Option.isSome_some, if_true] at hloc
      have hv : rv = v := by injection hloc
      subst hv
      have hcount2 := hcount (by simp [hr])
      cases hc : getMember ms "count" with
      | none =>
        cases rv with
        | arr es => exact absurd rfl (hnarr es)
        | null => simp [ReadingSet.ofJson, hr, hc]
        | bool b => simp [ReadingSet.ofJson, hr, hc]
        | num n2 => simp [ReadingSet.ofJson, hr, hc]
        | str s2 => simp [ReadingSet.ofJson, hr, hc]
        | obj ms2 => simp [ReadingSet.ofJson, hr, hc]
      | some cv =>
        rw [hc] at hcount2
        cases cv with
        | num nn =>
          cases nn with
          | intNum i =>
            obtain ⟨hipos, hile⟩ := hcount2
            have hgu : rjGetUint (JsonValue.num (RjNum.intNum i)) =
                Except.ok i.toNat := by
              simp only [rjGetUint]
              rw [if_pos ⟨le_of_lt hipos, hile⟩]
            have hne : ¬ ((some i.toNat : Option Nat) = some 0) := by
              simp
              omega
            cases rv with
            | arr es => exact absurd rfl (hnarr es)
            | null => simp [ReadingSet.ofJson, hr, hc, hgu, hne, Except.map]
            | bool b => simp [ReadingSet.ofJson, hr, hc, hgu, hne, Except.map]
            | num n2 => simp [ReadingSet.ofJson, hr, hc, hgu, hne, Except.map]
            | str s2 => simp [ReadingSet.ofJson, hr, hc, hgu, hne, Except.map]
            | obj ms2 => simp [ReadingSet.ofJson, hr, hc, hgu, hne, Except.map]
          | dblNum q => exact hcount2.elim
        | null => exact hcount2.elim
        | bool b => exact hcount2.elim
        | str s => exact hcount2.elim
        | arr es => exact hcount2.elim
        | obj ms2 => exact hcount2.elim
    | none =>
      rw [hr] at hloc
      simp only [Option.isSome_none, if_false, Bool.false_eq_true] at hloc
      cases hc : getMember ms "count" with
      | none =>
        cases v with
        | arr es => exact absurd rfl (hnarr es)
        | null => simp [ReadingSet.ofJson, hr, hc, hloc]
        | bool b => simp [ReadingSet.ofJson, hr, hc, hloc]
        | num n2 => simp [ReadingSet.ofJson, hr, hc, hloc]
        | str s2 => simp [ReadingSet.ofJson, hr, hc, hloc]
        | obj ms2 => simp [ReadingSet.ofJson, hr, hc, hloc]
      | some cv =>
        cases v with
        | arr es => exact absurd rfl (hnarr es)
        | null => simp [ReadingSet.ofJson, hr, hc, hloc]
        | bool b => simp [ReadingSet.ofJson, hr, hc, hloc]
        | num n2 => simp [ReadingSet.ofJson, hr, hc, hloc]
        | str s2 => simp [ReadingSet.ofJson, hr, hc, hloc]
        | obj ms2 => simp [ReadingSet.ofJson, hr, hc, hloc]

/-- C8 witness: the empty document is missing both keys, and a document
whose `readings` member is the number 5 is not an array. -/
theorem C8_witness :
    ReadingSet.ofJson (.obj []) = Except.error RErr.missingReadingsArray ∧
    ReadingSet.ofJson (.obj [("readings", .num (.intNum 5))]) =
      Except.error RErr.readingsNotArray := by
  constructor
  · exact C8_missing_or_not_array.1 [] rfl rfl
  · exact C8_missing_or_not_array.2 [("readings", .num (.intNum 5))]
      (JsonValue.num (RjNum.intNum 5)) rfl (fun elems h => by cases h)
      (fun h => by cases h)

end ReadingSetSpec
